import Mathlib

/-!
Shallow embedding of the DV6 dictionary-format parser (classes DV6Parser,
DV6Line, DV6HeadLine, DV6Element of the source).  JavaScript strings are
embedded as lists of characters, the two per-run diagnostic arrays as a
`PState` record threaded through the parsing functions, and every JavaScript
exception (thrown values as well as ReferenceError / TypeError raised by the
runtime) as the error side of an `Except`.
-/

/-- JavaScript strings, embedded as character lists. -/
abbrev Str := List Char

/-- Abnormal termination of the JavaScript code: a ReferenceError raised by
reading an undeclared identifier, a TypeError raised by dereferencing
null/undefined, or an explicitly thrown non-Error value such as the
number 1. -/
inductive JsError where
  | referenceError (ident : String)
  | typeError (what : String)
  | thrownValue (n : Nat)
  deriving Repr, DecidableEq

/-- The two diagnostic sinks of one parser instance (this._errors and
this._warnings).  Each diagnostic is embedded as the formatted message
string carried by the pushed Error object. -/
structure PState where
  errors : List Str
  warnings : List Str
  deriving Repr, DecidableEq

/-- Character class of the JavaScript regex token [A-Za-z0-9] (and of the
alphanumeric part of a word character). -/
def isAlnumChar (c : Char) : Bool := c.isAlpha || c.isDigit

/-- JavaScript regex word character: [A-Za-z0-9_]. -/
def isWordChar (c : Char) : Bool := isAlnumChar c || c = '_'

/-- Characters matched by the JavaScript regex dot (no s flag): everything
except the line terminators LF, CR, U+2028 and U+2029. -/
def isDotChar (c : Char) : Bool :=
  !(c = '\n' || c = '\r' || c = Char.ofNat 0x2028 || c = Char.ofNat 0x2029)

/-- Characters matched by the JavaScript regex token backslash-s
(whitespace). -/
def isSpaceJs (c : Char) : Bool :=
  c = ' ' || c = '\t' || c = '\n' || c = '\r' ||
  c = Char.ofNat 0x0b || c = Char.ofNat 0x0c || c = Char.ofNat 0xa0 ||
  c = Char.ofNat 0x1680 || (0x2000 ≤ c.toNat && c.toNat ≤ 0x200a) ||
  c = Char.ofNat 0x2028 || c = Char.ofNat 0x2029 || c = Char.ofNat 0x202f ||
  c = Char.ofNat 0x205f || c = Char.ofNat 0x3000 || c = Char.ofNat 0xfeff

/-- One logical source line (class DV6Line).  The constructor stores the
0-based loop index line_index; last_line_index stays undefined (none) unless
it is assigned later; jsLine models the ad-hoc .line property written by the
continuation branch (a property distinct from .content, absent until first
written). -/
structure DV6Line where
  line_index : Nat
  last_line_index : Option Nat
  indent : Nat
  content : Str
  jsLine : Option Str
  deriving Repr, DecidableEq

/-- Getter is_word of DV6Line: this.content.startsWith('#'). -/
def DV6Line.is_word (l : DV6Line) : Bool :=
  match l.content with
  | a :: _ => a = '#'
  | [] => false

/-- Getter is_property of DV6Line: the test of /^[A-Za-z0-9]+:/ against
this.content.  The regex matches exactly when a non-empty run of
alphanumerics starting at position 0 is followed by a colon; backtracking
over the run length cannot help, because shortening the run puts an
alphanumeric (never a colon) after it, so the test is equivalent to: the
first character is alphanumeric and the first non-alphanumeric character is
a colon. -/
def DV6Line.is_property (l : DV6Line) : Bool :=
  match l.content with
  | [] => false
  | c :: rest =>
    isAlnumChar c &&
      (match (c :: rest).dropWhile isAlnumChar with
       | ':' :: _ => true
       | _ => false)

/-- Getter is_extended of DV6Line: the test of two leading slashes against
this.content. -/
def DV6Line.is_extended (l : DV6Line) : Bool :=
  match l.content with
  | a :: b :: _ => a = '/' && b = '/'
  | _ => false

/-- Method error(message) of DV6Line.  line_description is
last_line_index ? start-end : line_index; JavaScript truthiness makes a
stored 0 fall back to the single-number form.  Numbers print in decimal. -/
def DV6Line.error (l : DV6Line) (message : Str) : Str :=
  let descr : Str :=
    match l.last_line_index with
    | some k =>
      if k ≠ 0 then
        (Nat.repr l.line_index).data ++ "-".data ++ (Nat.repr k).data
      else (Nat.repr l.line_index).data
    | none => (Nat.repr l.line_index).data
  "行".data ++ descr ++ ": ".data ++ message

/-- A node of the indentation tree: a DV6Line leaf, or a DV6HeadLine (a
DV6Line plus an ordered children array). -/
inductive DV6Node where
  | line (l : DV6Line)
  | head (l : DV6Line) (children : List DV6Node)

/-- The DV6Line part of a node (DV6HeadLine inherits all DV6Line fields and
getters through its super call). -/
def DV6Node.lineOf : DV6Node → DV6Line
  | .line l => l
  | .head l _ => l

/-- is_word lifted to tree nodes via inheritance. -/
def DV6Node.is_word (n : DV6Node) : Bool := n.lineOf.is_word

/-- is_property lifted to tree nodes via inheritance. -/
def DV6Node.is_property (n : DV6Node) : Bool := n.lineOf.is_property

/-- is_extended lifted to tree nodes via inheritance. -/
def DV6Node.is_extended (n : DV6Node) : Bool := n.lineOf.is_extended

/-- error lifted to tree nodes via inheritance. -/
def DV6Node.error (n : DV6Node) (message : Str) : Str :=
  n.lineOf.error message

/-- The output tree (class DV6Element): an element with a name, an
attribute mapping (association list, insertion order) and ordered children
that are elements or raw strings. -/
inductive DV6Child where
  | text (s : Str)
  | elem (ename : Str) (attrs : List (Str × Str)) (children : List DV6Child)

/-- Whether a child is an element carrying the given element name (raw text
children carry no name). -/
def isElemNamed (n : Str) : DV6Child → Bool
  | .text _ => false
  | .elem m _ _ => m = n

/-- Number of children of an element that are elements with the given name
(0 for a raw text node). -/
def countNamed (w : DV6Child) (n : Str) : Nat :=
  match w with
  | .text _ => 0
  | .elem _ _ cs => (cs.filter (isElemNamed n)).length

/-- String.prototype.split on a single-character separator: always returns
at least one (possibly empty) segment; the empty string yields one empty
segment. -/
def splitChar (sep : Char) : Str → List Str
  | [] => [[]]
  | c :: rest =>
    if c = sep then [] :: splitChar sep rest
    else
      match splitChar sep rest with
      | [] => [[c]]
      | seg :: segs => (c :: seg) :: segs

/-- dv6.split(line-break regex): splits on CRLF or LF (a lone CR is not a
separator, because the optional CR of the pattern must be followed by LF). -/
def splitNL : Str → List Str
  | [] => [[]]
  | '\r' :: '\n' :: rest => [] :: splitNL rest
  | '\n' :: rest => [] :: splitNL rest
  | c :: rest =>
    match splitNL rest with
    | [] => [[c]]
    | seg :: segs => (c :: seg) :: segs

/-- Array.prototype.findIndex with the source's patch that replaces the -1
(not found) result by the array length. -/
def findIndexOrLen (p : α → Bool) : List α → Nat
  | [] => 0
  | x :: xs => if p x then 0 else findIndexOrLen p xs + 1

/-- String.prototype.startsWith on a one-character argument. -/
def strStartsWith (s : Str) (c : Char) : Bool :=
  match s with
  | x :: _ => x = c
  | [] => false

/-- String.prototype.endsWith on a one-character argument. -/
def strEndsWith (s : Str) (c : Char) : Bool :=
  match s.getLast? with
  | some x => x = c
  | none => false

namespace DV6Parser

/-- The per-physical-line regex of dv6_to_lines, with leading tab capture,
middle content group and trailing backslash capture.  The middle group is a
greedy star of (escaped backslash | backslash with optional CR, optional LF
| any non-backslash character); since the second alternative matches a lone
backslash (both its CR and LF being optional) and the third alternative
matches every other character, the greedy star always consumes the whole
remainder of the line, the optional capture 3 matches empty, and the dollar
succeeds, with no backtracking ever required.  Hence for every physical
line the match yields: capture 1 = the maximal leading tab run, capture 2 =
everything after it (a trailing backslash included), capture 3 =
undefined.  The Boolean component embeds whether capture 3 participated,
which is therefore constantly false. -/
def lineReMatch (s : Str) : Nat × Str × Bool :=
  ((s.takeWhile fun c => c = '\t').length, s.dropWhile fun c => c = '\t', false)

/-- The local errors array entry pushed on an indentation jump of two or
more levels (message uses the 1-based line number). -/
def jumpMsg (idx : Nat) : Str :=
  "行".data ++ (Nat.repr (idx + 1)).data ++
    ": インデントが直前の行から2レベル以上上がっています".data

/-- The local errors array entry pushed on a continuation-indent mismatch
(message uses the 1-based line number). -/
def contIndentMsg (idx : Nat) : Str :=
  "行".data ++ (Nat.repr (idx + 1)).data ++
    ": インデントが直前の継続行と不一致です".data

/-- JavaScript string concatenation previous_line.line += chunk, where the
property starts out undefined and is coerced to the string "undefined". -/
def jsLineAppend (old : Option Str) (chunk : Str) : Str :=
  match old with
  | none => "undefined".data ++ chunk
  | some l => l ++ chunk

/-- Loop state of dv6_to_lines: the local errors array, the lines array
(most recent first) and the line_continued flag. -/
structure ScanSt where
  errs : List Str
  rev_lines : List DV6Line
  continued : Bool
  deriving Repr, DecidableEq

/-- One iteration of the dv6_to_lines loop at raw-line index idx. -/
def scanStep (idx : Nat) (raw : Str) (st : ScanSt) : ScanSt :=
  let m := lineReMatch raw
  let st1 :=
    if st.continued then
      -- Continuation branch.  Unreachable for every input: lineReMatch
      -- never reports a continuation mark, so the flag is never set.
      match st.rev_lines with
      | [] => st
      | prev :: rest =>
        let errs :=
          if m.1 ≠ prev.indent then st.errs ++ [contIndentMsg idx]
          else st.errs
        { st with
            errs := errs
            rev_lines :=
              { prev with jsLine := some (jsLineAppend prev.jsLine m.2.1) } :: rest }
    else
      let line : DV6Line := ⟨idx, none, m.1, m.2.1, none⟩
      let errs :=
        match st.rev_lines with
        | prev :: _ =>
          -- previous_line.indent < line.indent - 1 over JavaScript numbers,
          -- rearranged to avoid truncated natural subtraction.
          if prev.indent + 1 < line.indent then st.errs ++ [jumpMsg idx]
          else st.errs
        | [] => st.errs
      { st with
          errs := errs
          rev_lines := line :: st.rev_lines }
  if m.2.2 then { st1 with continued := true }
  else
    let st2 :=
      if st.continued then
        match st1.rev_lines with
        | [] => st1
        | prev :: rest =>
          { st1 with rev_lines := { prev with last_line_index := some idx } :: rest }
      else st1
    { st2 with continued := false }

/-- The dv6_to_lines loop over all raw lines, indices counting up. -/
def scanGo : List Str → Nat → ScanSt → ScanSt
  | [], _, st => st
  | raw :: raws, idx, st => scanGo raws (idx + 1) (scanStep idx raw st)

/-- dv6_to_lines before its final error check: the collected local errors
array and the lines array, in order. -/
def dv6_scan (src : Str) : List Str × List DV6Line :=
  let st := scanGo (splitNL src) 0 ⟨[], [], false⟩
  (st.errs, st.rev_lines.reverse)

/-- Static method dv6_to_lines.  When the local errors array is non-empty
the source executes a throw whose argument expression reads the undeclared
identifier erros (a misspelling of errors), so the JavaScript engine raises
a ReferenceError before any combined Error message can be built; the
collected messages are lost with the local array. -/
def dv6_to_lines (src : Str) : Except JsError (List DV6Line) :=
  if (dv6_scan src).1 = [] then .ok (dv6_scan src).2
  else .error (.referenceError "erros")

/-- Specification view of the scan loop: the DV6Line the loop builds for
the raw line at 0-based index idx, and the list built for a run of raw
lines starting at idx.  Because the continuation capture never matches,
every raw line yields exactly one DV6Line of this shape. -/
def mkLines : Nat → List Str → List DV6Line
  | _, [] => []
  | idx, r :: rs =>
    ⟨idx, none, (lineReMatch r).1, (lineReMatch r).2.1, none⟩ :: mkLines (idx + 1) rs

/-- An open branch of flat_to_structured_lines: its head line and the
children accumulated so far. -/
structure LFrame where
  info : DV6Line
  kids : List DV6Node

/-- structure_stack.splice(indent_diff, -indent_diff): removes the k topmost
frames (all frames when k exceeds the stack height).  Each removed frame
was pushed into its parent's children on creation and is still mutated
until removed, so functionally the completed branch node is attached to the
parent at removal time; a removed bottommost frame has no parent and is
dropped. -/
def popFrames : Nat → List LFrame → List LFrame
  | 0, stack => stack
  | _ + 1, [] => []
  | _ + 1, [_] => []
  | k + 1, f :: g :: rest =>
    popFrames k ({ g with kids := g.kids ++ [DV6Node.head f.info f.kids] } :: rest)

/-- The flat_to_structured_lines loop, with one-line lookahead.  The stack
keeps its top frame first; an empty stack makes the next children access a
TypeError on undefined. -/
def liftGo : List DV6Line → List LFrame → Except JsError (List LFrame)
  | [], stack => .ok stack
  | l :: rest, stack =>
    match stack with
    | [] => .error (.typeError "children of undefined stack slot")
    | cur :: others =>
      match rest with
      | [] => .ok ({ cur with kids := cur.kids ++ [DV6Node.line l] } :: others)
      | nl :: _ =>
        if l.indent < nl.indent then
          liftGo rest ({ info := l, kids := [] } :: cur :: others)
        else if nl.indent < l.indent then
          liftGo rest
            (popFrames (l.indent - nl.indent)
              ({ cur with kids := cur.kids ++ [DV6Node.line l] } :: others))
        else
          liftGo rest ({ cur with kids := cur.kids ++ [DV6Node.line l] } :: others)

/-- Folding the still-open frames at loop end: each open branch was already
referenced from its parent's children, so the completed branches are
attached bottom-up until only the root frame remains. -/
def collapseFrames (f : LFrame) : List LFrame → LFrame
  | [] => f
  | g :: rest =>
    collapseFrames { g with kids := g.kids ++ [DV6Node.head f.info f.kids] } rest

/-- The synthetic root DV6HeadLine is built from an empty object, leaving
every DV6Line field undefined; none of those fields is ever read, so
arbitrary defaults stand in for them. -/
def rootLine : DV6Line := ⟨0, none, 0, [], none⟩

/-- Static method flat_to_structured_lines: returns the root head line and
its completed children.  An emptied stack leaves structure_stack[0]
undefined, which the next property access turns into a TypeError. -/
def flat_to_structured_lines (lines : List DV6Line) :
    Except JsError (DV6Line × List DV6Node) :=
  match liftGo lines [⟨rootLine, []⟩] with
  | .error e => .error e
  | .ok [] => .error (.typeError "children of undefined stack slot")
  | .ok (f :: rest) =>
    let root := collapseFrames f rest
    .ok (root.info, root.kids)

/-- The property-line regex with a leading-letter identifier and arbitrary
value.  The greedy word-character star ends at the first non-word
character, which the regex then requires to be a colon (backtracking cannot
move the colon, since every character given back is a word character), and
the dot star then has to cover the whole remaining value, so the value may
not contain a line terminator. -/
def matchPropLine (s : Str) : Option (Str × Str) :=
  match s with
  | [] => none
  | c :: rest =>
    if c.isAlpha then
      match rest.dropWhile isWordChar with
      | ':' :: v =>
        if v.all isDotChar then some (c :: rest.takeWhile isWordChar, v)
        else none
      | _ => none
    else none

/-- The lang:text regex of the spell and pron cases: a non-empty
word-character run, a colon, and a non-empty dot-matched remainder. -/
def matchLang (s : Str) : Option (Str × Str) :=
  match s.dropWhile isWordChar with
  | ':' :: v =>
    if !(s.takeWhile isWordChar).isEmpty && !v.isEmpty && v.all isDotChar then
      some (s.takeWhile isWordChar, v)
    else none
  | _ => none

/-- The entry-title regex of parse_word: a leading hash sign followed by at
least one dot-matched character up to the end of the line. -/
def matchTitle (s : Str) : Option Str :=
  match s with
  | '#' :: rest =>
    if !rest.isEmpty && rest.all isDotChar then some rest else none
  | _ => none

/-- The content-line regex: a non-empty run of non-whitespace characters, a
single whitespace character, and a dot-matched remainder.  Backtracking
cannot shorten the greedy run (the character given back never matches the
whitespace token), so the whitespace sits right after the maximal run. -/
def matchContent (s : Str) : Option (Str × Str) :=
  match s.takeWhile (fun c => !isSpaceJs c), s.dropWhile (fun c => !isSpaceJs c) with
  | [], _ => none
  | _, [] => none
  | r, _w :: rest =>
    if rest.all isDotChar then some (r, rest) else none

/-- The YYYY/MM/DD core of the author date regex. -/
def ymdShape : Str → Bool
  | [a, b, c, d, e, f, g, h, i, j] =>
    a.isDigit && b.isDigit && c.isDigit && d.isDigit && e = '/' &&
    f.isDigit && g.isDigit && h = '/' && i.isDigit && j.isDigit
  | _ => false

/-- The HH:MM part of the author date regex. -/
def hmShape : Str → Bool
  | [a, b, c, d, e] => a.isDigit && b.isDigit && c = ':' && d.isDigit && e.isDigit
  | _ => false

/-- The full author date regex: YYYY/MM/DD optionally followed by a space
and HH:MM, optionally extended by :SS; anchored at both ends. -/
def dateTimeShape (s : Str) : Bool :=
  ymdShape s ||
  (ymdShape (s.take 10) &&
    (match s.drop 10 with
     | ' ' :: t =>
       hmShape t ||
       (hmShape (t.take 5) &&
         (match t.drop 5 with
          | ':' :: u =>
            (match u with
             | [a, b] => a.isDigit && b.isDigit
             | _ => false)
          | _ => false))
     | _ => false))

/-- The known flag list of the flag case. -/
def known_flags : List Str :=
  ["SPL".data, "JOKE".data, "MEDICAL".data, "PHARM".data, "MISS".data, "DQN".data]

/-- The allowed author operations. -/
def opList : List Str := ["A".data, "R".data, "I".data]

/-- The date loop of the author case: a well-shaped date becomes a date
child; a malformed one pushes the format error and then executes throw 1
(the break after the throw is dead), aborting with the thrown number. -/
def datesLoop (st : PState) (l : DV6Line) :
    List Str → Except (JsError × PState) (List DV6Child × PState)
  | [] => .ok ([], st)
  | d :: ds =>
    if dateTimeShape d then
      match datesLoop st l ds with
      | .error e => .error e
      | .ok (cs, st') => .ok (.elem "date".data [] [.text d] :: cs, st')
    else
      .error (.thrownValue 1,
        { st with errors := st.errors ++
            [l.error ("日付書式が間違っています[".data ++ d ++ "]".data)] })

/-- The author case.  Splitting on commas always yields a first field; with
fewer than three fields the later destructured names are undefined and the
split call on them raises a TypeError.  The truthiness test on the sources
field maps both undefined and the empty string to an empty sources list. -/
def authorCase (st : PState) (l : DV6Line) (value : Str) :
    Except (JsError × PState) (List DV6Child × PState) :=
  let info := splitChar ',' value
  if info.length ≤ 4 then
    let operation := info.headD []
    if !(opList.contains operation) then
      .ok ([], { st with errors := st.errors ++
        [l.error "authorの処理内容はA,R,Iのみです".data] })
    else
      match info.get? 1 with
      | none => .error (.typeError "split of undefined dates_str", st)
      | some dates_str =>
        match info.get? 2 with
        | none => .error (.typeError "split of undefined names_str", st)
        | some names_str =>
          let sources_str := info.get? 3
          let dates := splitChar ';' dates_str
          let names := splitChar ';' names_str
          let sources :=
            match sources_str with
            | some s => if s.isEmpty then [] else splitChar ';' s
            | none => []
          match datesLoop st l dates with
          | .error e => .error e
          | .ok (dateEls, st') =>
            .ok ([.elem "author".data [("operation".data, operation)]
                   (dateEls ++ names.map (fun n => .elem "name".data [] [.text n])
                     ++ sources.map (fun s => .elem "source".data [] [.text s]))],
                 st')
  else
    .ok ([], { st with errors := st.errors ++
      [l.error "authorプロパティの書式が正しくありません".data] })

/-- The flag loop: one flag element per comma-separated item, and a warning
pushed exactly when the item is contained in the known flag list (the
membership test of the source, although the warning text speaks of an
unknown flag). -/
def flagLoop (l : DV6Line) (st : PState) :
    List Str → List DV6Child × PState
  | [] => ([], st)
  | f :: fs =>
    let st1 :=
      if known_flags.contains f then
        { st with warnings := st.warnings ++
          [l.error ("未知のフラグ[".data ++ f ++ "]があります".data)] }
      else st
    let (ps, st2) := flagLoop l st1 fs
    (.elem "flag".data [] [.text f] :: ps, st2)

/-- The switch on the property identifier (cases in source order; the
valid and expire cases evaluate the undeclared identifier date - the
author-loop variable is not in scope there - so both raise a
ReferenceError before testing anything). -/
def propDispatch (st : PState) (l : DV6Line) (name value : Str) :
    Except (JsError × PState) (List DV6Child × PState) :=
  if name = "yomi".data then
    .ok ([.elem "yomi".data [] [.text value]], st)
  else if name = "qyomi".data then
    .ok ([.elem "qyomi".data [] [.text value]], st)
  else if name = "spell".data then
    match matchLang value with
    | some (lang, t) => .ok ([.elem "spell".data [("lang".data, lang)] [.text t]], st)
    | none => .ok ([], { st with errors := st.errors ++
        [l.error "spellプロパティの書式が正しくありません".data] })
  else if name = "pron".data then
    match matchLang value with
    | some (lang, t) => .ok ([.elem "pron".data [("lang".data, lang)] [.text t]], st)
    | none => .ok ([], { st with errors := st.errors ++
        [l.error "pronプロパティの書式が正しくありません".data] })
  else if name = "pos".data then
    .ok ((splitChar ',' value).map (fun p => .elem "pos".data [] [.text p]), st)
  else if name = "dir".data then
    if strStartsWith value '/' && !strEndsWith value '/' then
      .ok ([.elem "dir".data [] [.text value]], st)
    else
      .ok ([], { st with errors := st.errors ++
        [l.error "dirプロパティは/で始まり/でない文字で終わるべきです".data] })
  else if name = "flag".data then
    .ok (flagLoop l st (splitChar ',' value))
  else if name = "author".data then
    authorCase st l value
  else if name = "valid".data then
    .error (.referenceError "date", st)
  else if name = "expire".data then
    .error (.referenceError "date", st)
  else
    .ok ([], { st with warnings := st.warnings ++
      [l.error "未知のプロパティ指定があります".data] })

/-- One non-branch element of the property region: match the property-line
regex, then dispatch. -/
def propLineCase (st : PState) (l : DV6Line) :
    Except (JsError × PState) (List DV6Child × PState) :=
  match matchPropLine l.content with
  | none => .ok ([], { st with errors := st.errors ++
      [l.error "プロパティの書式が正しくありません".data] })
  | some (name, value) => propDispatch st l name value

/-- The parse_properties loop over the property-region elements, collecting
the accepted property elements in order. -/
def parse_properties_go (st : PState) :
    List DV6Node → Except (JsError × PState) (List DV6Child × PState)
  | [] => .ok ([], st)
  | el :: rest =>
    match el with
    | .head l _ =>
      parse_properties_go
        { st with errors := st.errors ++
          [l.error "プロパティがインデントを持っています".data] } rest
    | .line l =>
      match propLineCase st l with
      | .error e => .error e
      | .ok (ps, st1) =>
        match parse_properties_go st1 rest with
        | .error e => .error e
        | .ok (ps2, st2) => .ok (ps ++ ps2, st2)

/-- Method parse_properties: the loop result wrapped into the properties
element. -/
def parse_properties (st : PState) (els : List DV6Node) :
    Except (JsError × PState) (DV6Child × PState) :=
  match parse_properties_go st els with
  | .error e => .error e
  | .ok (ps, st') => .ok (.elem "properties".data [] ps, st')

/-- The parse_contents loop: a line not shaped marker-space-body pushes an
error; a matching line is left unimplemented (TODO in the source) and adds
nothing. -/
def contentsGo (st : PState) : List DV6Node → PState
  | [] => st
  | el :: rest =>
    match matchContent el.lineOf.content with
    | some _ => contentsGo st rest
    | none =>
      contentsGo
        { st with errors := st.errors ++
          [el.lineOf.error "内容は(記号)(空白)(内容)であるべきです".data] } rest

/-- Method parse_contents: always the (empty) contents element plus the
updated sink. -/
def parse_contents (st : PState) (els : List DV6Node) : DV6Child × PState :=
  (.elem "contents".data [] [], contentsGo st els)

/-- Method parse_extended: an empty body returning undefined. -/
def parse_extended (st : PState) (_els : List DV6Node) : Unit × PState :=
  ((), st)

/-- The property-region boundary of parse_top_children: index of the first
child that does not look like a property (array length when all do). -/
def contentsBeginIdx (children : List DV6Node) : Nat :=
  findIndexOrLen (fun e => !e.is_property) children

/-- The extended-region boundary of parse_top_children: index of the first
child whose line starts with two slashes (array length when none does). -/
def extendedBeginIdx (children : List DV6Node) : Nat :=
  findIndexOrLen DV6Node.is_extended children

/-- Method parse_top_children: slice the children into property, content
and extended regions and parse each. -/
def parse_top_children (st : PState) (children : List DV6Node) :
    Except (JsError × PState) ((DV6Child × DV6Child) × PState) :=
  let cb := contentsBeginIdx children
  let eb := extendedBeginIdx children
  match parse_properties st (children.take cb) with
  | .error e => .error e
  | .ok (props, st1) =>
    let (contents, st2) := parse_contents st1 ((children.drop cb).take (eb - cb))
    let (_ext, st3) := parse_extended st2 (children.drop eb)
    .ok ((props, contents), st3)

/-- Method parse_word: the title match is dereferenced unconditionally, so
a failed match (header text # alone, or a title containing a line
terminator) raises a TypeError; otherwise the word element is built from
the name element, the properties element and the contents element. -/
def parse_word (st : PState) (l : DV6Line) (children : List DV6Node) :
    Except (JsError × PState) (DV6Child × PState) :=
  match matchTitle l.content with
  | none => .error (.typeError "member 1 of null match result", st)
  | some title =>
    match parse_top_children st children with
    | .error e => .error e
    | .ok ((props, contents), st') =>
      .ok (.elem "word".data []
             [.elem "name".data [] [.text title], props, contents], st')

/-- Method parse_toplevel over the root's children: a hash-headed branch is
parsed as a word, a hash-headed leaf pushes the no-content error, anything
else maps to undefined; the final filter keeps the word elements in
order. -/
def parse_toplevel (st : PState) :
    List DV6Node → Except (JsError × PState) (List DV6Child × PState)
  | [] => .ok ([], st)
  | el :: rest =>
    if el.is_word then
      match el with
      | .head l kids =>
        match parse_word st l kids with
        | .error e => .error e
        | .ok (w, st') =>
          match parse_toplevel st' rest with
          | .error e => .error e
          | .ok (ws, st'') => .ok (w :: ws, st'')
      | .line l =>
        parse_toplevel
          { st with errors := st.errors ++
            [l.error "単語の内容がありません".data] } rest
    else parse_toplevel st rest

/-- Method parse of a fresh DV6Parser instance: line splitting, tree
lifting, then top-level entry extraction, with both sinks empty at the
start.  An exception in the line splitter or the tree lifter escapes before
either sink is touched. -/
def parse (src : Str) : Except (JsError × PState) (List DV6Child × PState) :=
  match dv6_to_lines src with
  | .error e => .error (e, ⟨[], []⟩)
  | .ok lines =>
    match flat_to_structured_lines lines with
    | .error e => .error (e, ⟨[], []⟩)
    | .ok (_root, kids) => parse_toplevel ⟨[], []⟩ kids

end DV6Parser

/-! ## Helper lemmas about the line splitter -/

namespace DV6Parser

/-- The continuation capture of the line regex never participates, so the
line_continued flag is false again after every iteration. -/
theorem scanStep_continued (idx : Nat) (raw : Str) (st : ScanSt) :
    (scanStep idx raw st).continued = false := rfl

/-- With the flag down, one loop iteration pushes exactly the DV6Line built
from the current raw line, whatever happens to the error array. -/
theorem scanStep_rev_lines (idx : Nat) (raw : Str) (st : ScanSt)
    (h : st.continued = false) :
    (scanStep idx raw st).rev_lines =
      ⟨idx, none, (lineReMatch raw).1, (lineReMatch raw).2.1, none⟩ :: st.rev_lines := by
  simp [scanStep, h, lineReMatch]

/-- The scan loop appends one DV6Line per raw line, indices counting up
from the start index. -/
theorem scanGo_rev_lines : ∀ (raws : List Str) (idx : Nat) (st : ScanSt),
    st.continued = false →
    (scanGo raws idx st).rev_lines = (mkLines idx raws).reverse ++ st.rev_lines := by
  intro raws
  induction raws with
  | nil => intro idx st _; simp [scanGo, mkLines]
  | cons r rs ih =>
    intro idx st h
    simp only [scanGo, mkLines]
    rw [ih (idx + 1) _ (scanStep_continued idx r st), scanStep_rev_lines idx r st h]
    simp

/-- The line at position i of the specification list carries line_index
k + i. -/
theorem mkLines_line_index : ∀ (raws : List Str) (k i : Nat)
    (h : i < (mkLines k raws).length),
    ((mkLines k raws).get ⟨i, h⟩).line_index = k + i := by
  intro raws
  induction raws with
  | nil => intro k i h; simp [mkLines] at h
  | cons r rs ih =>
    intro k i h
    cases i with
    | zero => rfl
    | succ j =>
      have hj : j < (mkLines (k + 1) rs).length := by
        simpa [mkLines] using h
      have := ih (k + 1) j hj
      simpa [mkLines, Nat.add_comm, Nat.add_assoc, Nat.add_left_comm] using this

/-- A successful dv6_to_lines returns exactly the specification list. -/
theorem dv6_to_lines_ok (src : Str) (lines : List DV6Line)
    (h : dv6_to_lines src = .ok lines) :
    lines = mkLines 0 (splitNL src) := by
  unfold dv6_to_lines at h
  by_cases hc : (dv6_scan src).1 = []
  · rw [if_pos hc] at h
    have h2 : (dv6_scan src).2 = lines := by
      injection h
    rw [← h2]
    show (scanGo (splitNL src) 0 ⟨[], [], false⟩).rev_lines.reverse = _
    rw [scanGo_rev_lines (splitNL src) 0 ⟨[], [], false⟩ rfl]
    simp
  · rw [if_neg hc] at h
    cases h

end DV6Parser

/-! ## Claim theorems -/

/-- Claim C1: the source splits flag values on commas and produces one flag
node per item in order, but the diagnostic polarity of the claim fails: the
warning is pushed exactly for the items that ARE members of the known set,
and an item outside the set produces no diagnostic.  Evaluated at the
failing input flag:SPL (a known flag, warned) and at flag:ZZZ (an unknown
flag, silent). -/
theorem flag_warning_on_known_member :
    DV6Parser.parse_properties ⟨[], []⟩ [.line ⟨0, none, 1, "flag:SPL".data, none⟩] =
      .ok (.elem "properties".data [] [.elem "flag".data [] [.text "SPL".data]],
           ⟨[], ["行0: 未知のフラグ[SPL]があります".data]⟩) ∧
    DV6Parser.parse_properties ⟨[], []⟩ [.line ⟨0, none, 1, "flag:ZZZ".data, none⟩] =
      .ok (.elem "properties".data [] [.elem "flag".data [] [.text "ZZZ".data]],
           ⟨[], []⟩) :=
  ⟨rfl, rfl⟩

/-- Claim C2: an author date that fails the date shape does append the
diagnostic, but the next statement is throw 1, so the exception aborts the
parse instead of processing continuing - the claim's no-exception property
fails.  Evaluated at author:A,bad,Alice. -/
theorem author_bad_date_throws :
    DV6Parser.parse_properties ⟨[], []⟩
        [.line ⟨0, none, 1, "author:A,bad,Alice".data, none⟩] =
      .error (.thrownValue 1, ⟨["行0: 日付書式が間違っています[bad]".data], []⟩) :=
  rfl

/-- Claim C3: every valid:v property line evaluates the undeclared
identifier date (the author loop variable is not in scope in the valid
case), so a ReferenceError aborts the parse before any valid node or any
diagnostic is produced - even for a well-shaped value.  Evaluated at
valid:2020/01/01. -/
theorem valid_line_reference_error :
    DV6Parser.parse_properties ⟨[], []⟩
        [.line ⟨0, none, 1, "valid:2020/01/01".data, none⟩] =
      .error (.referenceError "date", ⟨[], []⟩) :=
  rfl

/-- Claim C4: the indent-0 line followed by an indent-2 line does make the
splitter collect the two-or-more-level-rise error, but the throw statement
reads the misspelled identifier erros, so the crash is a ReferenceError
instead of the single combined failure joining the collected messages. -/
theorem splitter_crash_is_reference_error :
    (DV6Parser.dv6_scan "a\n\t\tb".data).1 =
      ["行2: インデントが直前の行から2レベル以上上がっています".data] ∧
    DV6Parser.dv6_to_lines "a\n\t\tb".data = .error (.referenceError "erros") :=
  ⟨rfl, rfl⟩

/-- Claim C5: on the input tab-abc-backslash-newline-tab-def the greedy
middle group of the line regex consumes the trailing backslash, the
continuation capture never matches, and the splitter yields two separate
logical lines - the first keeping its backslash - instead of the single
merged line abcdef that the claim expects. -/
theorem continuation_never_merges :
    DV6Parser.dv6_to_lines "\tabc\\\n\tdef".data =
      .ok [⟨0, none, 1, "abc\\".data, none⟩, ⟨1, none, 1, "def".data, none⟩] :=
  rfl

/-- Claim C6 counterexample: the very first physical line of the input is
recorded with line_index 0, not the 1-based index 1 the claim requires, and
the diagnostic built from it reads 行0, not 行1. -/
theorem first_line_recorded_as_zero :
    DV6Parser.dv6_to_lines "a".data = .ok [⟨0, none, 0, "a".data, none⟩] ∧
    DV6Line.error ⟨0, none, 0, "a".data, none⟩ "x".data = "行0: x".data ∧
    DV6Line.error ⟨0, none, 0, "a".data, none⟩ "x".data ≠ "行1: x".data :=
  ⟨rfl, rfl, by decide⟩

/-- Claim C10: parsing a top-level header whose text is exactly the hash
sign, with one indented child, dereferences the failed title match: the
parse aborts with a TypeError, no word node is returned and both
diagnostic sinks are still empty. -/
theorem empty_title_header_aborts :
    DV6Parser.parse "#\n\tyomi:a".data =
      .error (.typeError "member 1 of null match result", ⟨[], []⟩) :=
  rfl

/-- Claim C6 (amended): each logical line corresponds to exactly one
physical line and records in line_index the 0-based index of that physical
line (not the 1-based one), and a diagnostic built by DV6Line.error
describes the line by that 0-based number - or by a 0-based start-end range
when a last line index is set. -/
theorem line_numbers_zero_based (src : Str) (lines : List DV6Line)
    (h : DV6Parser.dv6_to_lines src = .ok lines) :
    (∀ i (hi : i < lines.length), (lines.get ⟨i, hi⟩).line_index = i) ∧
    (∀ (l : DV6Line) (m : Str), l.last_line_index = none →
      DV6Line.error l m =
        "行".data ++ (Nat.repr l.line_index).data ++ ": ".data ++ m) ∧
    (∀ (l : DV6Line) (m : Str) (k : Nat), l.last_line_index = some k → k ≠ 0 →
      DV6Line.error l m =
        "行".data ++ (Nat.repr l.line_index).data ++ "-".data ++
          (Nat.repr k).data ++ ": ".data ++ m) := by
  refine ⟨?_, ?_, ?_⟩
  · intro i hi
    have hl := DV6Parser.dv6_to_lines_ok src lines h
    subst hl
    simpa using DV6Parser.mkLines_line_index (splitNL src) 0 i hi
  · intro l m hm
    unfold DV6Line.error
    rw [hm]
  · intro l m k hm hk
    unfold DV6Line.error
    rw [hm]
    simp [hk]

/-- Witness for the amended C6 theorem at the one-line input a and at
concrete lines with and without a closing index. -/
theorem line_numbers_zero_based_witness :
    (([⟨0, none, 0, "a".data, none⟩] : List DV6Line).get ⟨0, by decide⟩).line_index = 0 ∧
    DV6Line.error ⟨5, none, 2, "b".data, none⟩ "m".data = "行5: m".data ∧
    DV6Line.error ⟨3, some 7, 2, "b".data, none⟩ "m".data = "行3-7: m".data := by
  have h := line_numbers_zero_based "a".data [⟨0, none, 0, "a".data, none⟩] rfl
  exact ⟨h.1 0 (by decide), h.2.1 ⟨5, none, 2, "b".data, none⟩ "m".data rfl,
    h.2.2 ⟨3, some 7, 2, "b".data, none⟩ "m".data 7 rfl (by decide)⟩

/-! ## Helper lemmas for the property parser -/

namespace DV6Parser

/-- The property-line regex on a dir: prefix always captures name dir and
the raw value, provided the value contains no line terminator. -/
theorem matchPropLine_dir (v : Str) (hv : v.all isDotChar = true) :
    matchPropLine ("dir:".data ++ v) = some ("dir".data, v) := by
  have h0 : matchPropLine ("dir:".data ++ v) =
      if v.all isDotChar then some ("dir".data, v) else none := rfl
  rw [h0]
  simp [hv]

/-- The switch reaches the dir case for identifier dir and tests the
slash shape of the value. -/
theorem propDispatch_dir (st : PState) (l : DV6Line) (v : Str) :
    propDispatch st l "dir".data v =
      if strStartsWith v '/' && !strEndsWith v '/' then
        .ok ([.elem "dir".data [] [.text v]], st)
      else
        .ok ([], { st with errors := st.errors ++
          [l.error "dirプロパティは/で始まり/でない文字で終わるべきです".data] }) := rfl

/-- propLineCase on a dir: line reduces to the dir dispatch. -/
theorem propLineCase_dir (st : PState) (l : DV6Line) (v : Str)
    (hv : v.all isDotChar = true) (hc : l.content = "dir:".data ++ v) :
    propLineCase st l =
      if strStartsWith v '/' && !strEndsWith v '/' then
        .ok ([.elem "dir".data [] [.text v]], st)
      else
        .ok ([], { st with errors := st.errors ++
          [l.error "dirプロパティは/で始まり/でない文字で終わるべきです".data] }) := by
  unfold propLineCase
  rw [hc, matchPropLine_dir v hv]
  exact propDispatch_dir st l v

end DV6Parser

/-- Claim C7: a property line dir:v produces a dir node exactly when v
starts with a slash and does not end with one; otherwise the dir-shape
error is appended and no node is produced.  The hypothesis restricts v to
values the property-line regex can capture (no line terminators). -/
theorem dir_node_iff_slash_shape (st : PState) (i ind : Nat) (v : Str)
    (hv : v.all isDotChar = true) :
    DV6Parser.parse_properties st [.line ⟨i, none, ind, "dir:".data ++ v, none⟩] =
      (if strStartsWith v '/' && !strEndsWith v '/' then
        .ok (.elem "properties".data [] [.elem "dir".data [] [.text v]], st)
      else
        .ok (.elem "properties".data [] [],
          { st with errors := st.errors ++
            [DV6Line.error ⟨i, none, ind, "dir:".data ++ v, none⟩
              "dirプロパティは/で始まり/でない文字で終わるべきです".data] })) := by
  have h1 := DV6Parser.propLineCase_dir st ⟨i, none, ind, "dir:".data ++ v, none⟩ v hv rfl
  simp only [DV6Parser.parse_properties, DV6Parser.parse_properties_go, h1]
  cases hC : (strStartsWith v '/' && !strEndsWith v '/') <;> simp [hC]

/-- Witness for the C7 theorem at the three concrete inputs from the
specification: /foo/bar accepted, foo/bar and /foo/bar/ rejected. -/
theorem dir_node_iff_slash_shape_witness :
    DV6Parser.parse_properties ⟨[], []⟩
        [.line ⟨0, none, 1, "dir:/foo/bar".data, none⟩] =
      .ok (.elem "properties".data [] [.elem "dir".data [] [.text "/foo/bar".data]],
           ⟨[], []⟩) ∧
    DV6Parser.parse_properties ⟨[], []⟩
        [.line ⟨0, none, 1, "dir:foo/bar".data, none⟩] =
      .ok (.elem "properties".data [] [],
           ⟨["行0: dirプロパティは/で始まり/でない文字で終わるべきです".data], []⟩) ∧
    DV6Parser.parse_properties ⟨[], []⟩
        [.line ⟨0, none, 1, "dir:/foo/bar/".data, none⟩] =
      .ok (.elem "properties".data [] [],
           ⟨["行0: dirプロパティは/で始まり/でない文字で終わるべきです".data], []⟩) := by
  refine ⟨?_, ?_, ?_⟩
  · exact dir_node_iff_slash_shape ⟨[], []⟩ 0 1 "/foo/bar".data rfl
  · exact dir_node_iff_slash_shape ⟨[], []⟩ 0 1 "foo/bar".data rfl
  · exact dir_node_iff_slash_shape ⟨[], []⟩ 0 1 "/foo/bar/".data rfl

/-! ## Helper lemmas for the child classifier -/

/-- A line that looks like a property cannot begin with two slashes: its
first character is alphanumeric and a slash is not. -/
theorem line_prop_not_ext (l : DV6Line) (hp : l.is_property = true) :
    l.is_extended = false := by
  obtain ⟨i, lli, ind, content, jl⟩ := l
  unfold DV6Line.is_property at hp
  unfold DV6Line.is_extended
  rcases content with _ | ⟨c, rest⟩
  · exact absurd (show false = true from hp) (by decide)
  · have hp2 : (isAlnumChar c &&
        (match (c :: rest).dropWhile isAlnumChar with
         | ':' :: _ => true
         | _ => false)) = true := hp
    have hc : isAlnumChar c = true := by
      simp only [Bool.and_eq_true] at hp2
      exact hp2.1
    rcases rest with _ | ⟨c2, rest2⟩
    · rfl
    · by_cases h7 : c = '/'
      · subst h7
        exact absurd hc (by decide)
      · simp [h7]

/-- prop-not-extended lifted to tree nodes. -/
theorem node_prop_not_ext (n : DV6Node) (hp : n.is_property = true) :
    n.is_extended = false :=
  line_prop_not_ext n.lineOf hp

/-- The first non-property index never exceeds the first extended index,
because every child before it looks like a property and so cannot start
with two slashes. -/
theorem cb_le_eb : ∀ (cs : List DV6Node),
    DV6Parser.contentsBeginIdx cs ≤ DV6Parser.extendedBeginIdx cs := by
  intro cs
  induction cs with
  | nil => exact Nat.le_refl 0
  | cons x xs ih =>
    by_cases hp : x.is_property = true
    · have he := node_prop_not_ext x hp
      simp only [DV6Parser.contentsBeginIdx, DV6Parser.extendedBeginIdx,
        findIndexOrLen, hp, he] at *
      simpa using Nat.succ_le_succ ih
    · rw [Bool.not_eq_true] at hp
      simp [DV6Parser.contentsBeginIdx, findIndexOrLen, hp]

/-- Splitting a list at two ordered cut points covers it. -/
theorem take_take_drop_cover (l : List α) (a b : Nat) (hab : a ≤ b) :
    l.take a ++ (l.drop a).take (b - a) ++ l.drop b = l := by
  have h1 : (l.drop a).drop (b - a) = l.drop b := by
    rw [List.drop_drop]
    congr 1
    omega
  rw [← h1, List.append_assoc, List.take_append_drop, List.take_append_drop]

/-- When every child looks like a property the first non-property index is
the array length. -/
theorem cb_all_prop : ∀ (cs : List DV6Node),
    (∀ x ∈ cs, DV6Node.is_property x = true) →
    DV6Parser.contentsBeginIdx cs = cs.length := by
  intro cs
  induction cs with
  | nil => intro _; rfl
  | cons x xs ih =>
    intro hall
    have hx : x.is_property = true := hall x (List.mem_cons_self x xs)
    have hxs := ih fun y hy => hall y (List.mem_cons_of_mem x hy)
    simp [DV6Parser.contentsBeginIdx, findIndexOrLen, hx] at *
    simpa using hxs

/-- When no child starts with two slashes the first extended index is the
array length. -/
theorem eb_no_ext : ∀ (cs : List DV6Node),
    (∀ x ∈ cs, DV6Node.is_extended x = false) →
    DV6Parser.extendedBeginIdx cs = cs.length := by
  intro cs
  induction cs with
  | nil => intro _; rfl
  | cons x xs ih =>
    intro hall
    have hx : x.is_extended = false := hall x (List.mem_cons_self x xs)
    have hxs := ih fun y hy => hall y (List.mem_cons_of_mem x hy)
    simp [DV6Parser.extendedBeginIdx, findIndexOrLen, hx] at *
    simpa using hxs

/-- Claim C8: the classifier's boundaries are monotonic - the property
region ends at or before the content region starts, at or before the
extended region starts - so the three slices cover the children in order
without overlap; an all-property child list is entirely property region,
and with no two-slash child the extended region is empty. -/
theorem region_boundaries_monotone (children : List DV6Node) :
    DV6Parser.contentsBeginIdx children ≤ DV6Parser.extendedBeginIdx children ∧
    children.take (DV6Parser.contentsBeginIdx children) ++
      (children.drop (DV6Parser.contentsBeginIdx children)).take
        (DV6Parser.extendedBeginIdx children - DV6Parser.contentsBeginIdx children) ++
      children.drop (DV6Parser.extendedBeginIdx children) = children ∧
    ((∀ x ∈ children, DV6Node.is_property x = true) →
      DV6Parser.contentsBeginIdx children = children.length) ∧
    ((∀ x ∈ children, DV6Node.is_extended x = false) →
      children.drop (DV6Parser.extendedBeginIdx children) = []) := by
  refine ⟨cb_le_eb children,
    take_take_drop_cover children _ _ (cb_le_eb children),
    cb_all_prop children, ?_⟩
  intro hall
  rw [eb_no_ext children hall]
  exact List.drop_length children

/-- Witness for the C8 theorem at a one-element all-property child list. -/
theorem region_boundaries_monotone_witness :
    DV6Parser.contentsBeginIdx [.line ⟨0, none, 1, "yomi:a".data, none⟩] ≤
      DV6Parser.extendedBeginIdx [.line ⟨0, none, 1, "yomi:a".data, none⟩] ∧
    DV6Parser.contentsBeginIdx [.line ⟨0, none, 1, "yomi:a".data, none⟩] =
      ([.line ⟨0, none, 1, "yomi:a".data, none⟩] : List DV6Node).length ∧
    ([.line ⟨0, none, 1, "yomi:a".data, none⟩] : List DV6Node).drop
      (DV6Parser.extendedBeginIdx [.line ⟨0, none, 1, "yomi:a".data, none⟩]) = [] := by
  refine ⟨(region_boundaries_monotone [.line ⟨0, none, 1, "yomi:a".data, none⟩]).1,
    (region_boundaries_monotone [.line ⟨0, none, 1, "yomi:a".data, none⟩]).2.2.1 ?_,
    (region_boundaries_monotone [.line ⟨0, none, 1, "yomi:a".data, none⟩]).2.2.2 ?_⟩
  · intro x hx
    rw [List.mem_singleton] at hx
    subst hx
    decide
  · intro x hx
    rw [List.mem_singleton] at hx
    subst hx
    decide

/-! ## Helper lemmas for the word parser -/

/-- A successful parse_properties always returns the properties wrapper
element. -/
theorem parse_properties_shape (st : PState) (els : List DV6Node)
    (r : DV6Child × PState) (h : DV6Parser.parse_properties st els = .ok r) :
    ∃ ps, r.1 = .elem "properties".data [] ps := by
  unfold DV6Parser.parse_properties at h
  cases hg : DV6Parser.parse_properties_go st els with
  | error e => rw [hg] at h; cases h
  | ok p =>
    rw [hg] at h
    injection h with h2
    exact ⟨p.1, by rw [← h2]⟩

/-- A successful parse_top_children returns the properties wrapper as its
first component and the (always childless) contents wrapper as its
second. -/
theorem parse_top_children_shape (st : PState) (cs : List DV6Node)
    (r : (DV6Child × DV6Child) × PState)
    (h : DV6Parser.parse_top_children st cs = .ok r) :
    (∃ ps, r.1.1 = .elem "properties".data [] ps) ∧
    r.1.2 = .elem "contents".data [] [] := by
  simp only [DV6Parser.parse_top_children] at h
  cases hp : DV6Parser.parse_properties st
      (cs.take (DV6Parser.contentsBeginIdx cs)) with
  | error e => rw [hp] at h; cases h
  | ok pr =>
    rw [hp] at h
    simp only [DV6Parser.parse_contents, DV6Parser.parse_extended] at h
    injection h with h2
    obtain ⟨ps, hps⟩ := parse_properties_shape st _ pr hp
    rw [← h2]
    exact ⟨⟨ps, hps⟩, rfl⟩

/-- Claim C9: every word element a successful parse_word returns has
exactly one name child (carrying the entry title, the text after the
leading hash sign), exactly one properties child, and exactly one contents
child. -/
theorem word_node_child_counts (st : PState) (l : DV6Line)
    (children : List DV6Node) (r : DV6Child × PState)
    (h : DV6Parser.parse_word st l children = .ok r) :
    countNamed r.1 "name".data = 1 ∧
    countNamed r.1 "properties".data = 1 ∧
    countNamed r.1 "contents".data = 1 ∧
    (∃ title, DV6Parser.matchTitle l.content = some title ∧
      ∃ props contents,
        r.1 = .elem "word".data []
          [.elem "name".data [] [.text title], props, contents] ∧
        isElemNamed "properties".data props = true ∧
        isElemNamed "contents".data contents = true) := by
  unfold DV6Parser.parse_word at h
  cases hm : DV6Parser.matchTitle l.content with
  | none => rw [hm] at h; cases h
  | some title =>
    rw [hm] at h
    cases htc : DV6Parser.parse_top_children st children with
    | error e => rw [htc] at h; cases h
    | ok q =>
      rw [htc] at h
      obtain ⟨⟨ps, hps⟩, hcont⟩ := parse_top_children_shape st children q htc
      injection h with h2
      rw [← h2]
      refine ⟨?_, ?_, ?_, title, rfl, q.1.1, q.1.2, rfl, ?_, ?_⟩
      · show countNamed (.elem "word".data []
          [.elem "name".data [] [.text title], q.1.1, q.1.2]) "name".data = 1
        rw [hps, hcont]
        rfl
      · show countNamed (.elem "word".data []
          [.elem "name".data [] [.text title], q.1.1, q.1.2]) "properties".data = 1
        rw [hps, hcont]
        rfl
      · show countNamed (.elem "word".data []
          [.elem "name".data [] [.text title], q.1.1, q.1.2]) "contents".data = 1
        rw [hps, hcont]
        rfl
      · rw [hps]; rfl
      · rw [hcont]; rfl

/-- Witness for the C9 theorem at a concrete childless entry headed
#ab. -/
theorem word_node_child_counts_witness :
    countNamed (.elem "word".data [] [.elem "name".data [] [.text "ab".data],
      .elem "properties".data [] [], .elem "contents".data [] []]) "name".data = 1 ∧
    countNamed (.elem "word".data [] [.elem "name".data [] [.text "ab".data],
      .elem "properties".data [] [], .elem "contents".data [] []]) "properties".data = 1 ∧
    countNamed (.elem "word".data [] [.elem "name".data [] [.text "ab".data],
      .elem "properties".data [] [], .elem "contents".data [] []]) "contents".data = 1 := by
  have h := word_node_child_counts ⟨[], []⟩ ⟨0, none, 0, "#ab".data, none⟩ []
    (⟨.elem "word".data [] [.elem "name".data [] [.text "ab".data],
      .elem "properties".data [] [], .elem "contents".data [] []], ⟨[], []⟩⟩) rfl
  exact ⟨h.1, h.2.1, h.2.2.1⟩
